import Mathlib

/-!
Verification of the TCP receiver in `src/receiver_win32_fixed.cpp`
(repository cn_project_main): a Win32 program that receives one
length-prefixed payload per connection, persists it atomically, and types the
saved file into the focused window when the 7+8+9 hotkey is pressed.

Shallow embedding notes.

* A socket is modelled by the byte stream still to be delivered
  (`List Nat`, each entry < 256 in realizable runs) together with a schedule
  of recv-call outcomes (`List NetEv`): each loop iteration of the source
  consumes one schedule entry.  `NetEv.recvRet t avail` models a `recv` call
  returning at tick `t` with `avail` bytes in the kernel buffer — the call
  returns `min avail torecv` bytes, and a return of `0` is exactly the
  source's `r == 0` (peer-closed) case; `NetEv.wouldBlock t` models a return
  of `SOCKET_ERROR` with `WSAEWOULDBLOCK`/`WSAETIMEDOUT`; `NetEv.recvErr t c`
  a return of `SOCKET_ERROR` with any other error code `c`.
* `GetTickCount()` values are the `t` of each event; `DWORD` subtraction
  `GetTickCount() - start` is `dwElapsed` (subtraction mod 2^32).
* A schedule that runs out while the source would still loop yields
  `RecvErr.starved` — it models a `recv` call that blocks forever, which the
  source has no exit for; it is not one of the code's failure returns.
-/

/-- One outcome of a `::recv` call, with the `GetTickCount()` value observed
around it (receiver_win32_fixed.cpp lines 128, 166). -/
inductive NetEv where
  | recvRet (tick : Nat) (avail : Nat)
  | wouldBlock (tick : Nat)
  | recvErr (tick : Nat) (code : Nat)
deriving Repr, DecidableEq

/-- The distinct failure exits of `recv_all` / `recv_uint32_be`:
`connClosed` is the `r == 0` return of `recv_all` (line 129), `protoTimeout`
the deadline-expired return (lines 137-139 and 171-173), `recvError` the
hard-error return (lines 144-146 and 178-180), `starved` the model's value
for a schedule too short for the loop to finish. -/
inductive RecvErr where
  | connClosed
  | protoTimeout
  | recvError (code : Nat)
  | starved
deriving Repr, DecidableEq

/-- `DWORD` arithmetic `now - start` as the source computes it with
`GetTickCount()` values (unsigned 32-bit wrap-around subtraction). -/
def dwElapsed (now start : Nat) : Nat :=
  (now % 4294967296 + 4294967296 - start % 4294967296) % 4294967296

/-- The tick carried by a schedule event. -/
def evTick : NetEv → Nat
  | .recvRet t _ => t
  | .wouldBlock t => t
  | .recvErr t _ => t

/-- Loop of `recv_all` (receiver_win32_fixed.cpp lines 123-154).  `out` is
the accumulated buffer (`total = out.length`), `start` the deadline anchor
(reset on every successful read, line 152), `stream` the bytes the socket
has not yet delivered.  Each iteration requests
`torecv = min 4096 (nbytes - total)` (line 125) and the socket returns
`min avail torecv` bytes of the stream. -/
def recvAllGo (nbytes timeoutMs : Nat) : List NetEv → List Nat → Nat → List Nat →
    Except RecvErr (List Nat × List Nat × List NetEv)
  | evs, out, start, stream =>
    if nbytes ≤ out.length then .ok (out, stream, evs)
    else
      match evs with
      | [] => .error .starved
      | .recvRet t avail :: rest =>
        let torecv := min 4096 (nbytes - out.length)
        let r := min avail torecv
        if r = 0 then .error .connClosed
        else recvAllGo nbytes timeoutMs rest (out ++ stream.take r) t (stream.drop r)
      | .wouldBlock t :: rest =>
        if timeoutMs < dwElapsed t start then .error .protoTimeout
        else recvAllGo nbytes timeoutMs rest out start stream
      | .recvErr _ code :: _ => .error (.recvError code)

/-- `recv_all` (receiver_win32_fixed.cpp lines 117-157): receive exactly
`nbytes` bytes, tolerating short reads; on success returns the buffer, the
undelivered rest of the stream and the unconsumed schedule. -/
def recv_all (stream : List Nat) (evs : List NetEv) (nbytes timeout_seconds startTick : Nat) :
    Except RecvErr (List Nat × List Nat × List NetEv) :=
  recvAllGo nbytes (timeout_seconds * 1000) evs [] startTick stream

/-- Big-endian assembly of the 4 header bytes (receiver_win32_fixed.cpp lines
186-189).  The source computes `buf[0] << 24 | buf[1] << 16 | buf[2] << 8 |
buf[3]` on `uint8_t` values; for bytes < 256 the or-ed fields occupy disjoint
bit ranges, so the result is exactly this base-256 sum. -/
def decodeBE : List Nat → Nat
  | [b0, b1, b2, b3] => b0 * 16777216 + b1 * 65536 + b2 * 256 + b3
  | _ => 0

/-- The 4-byte big-endian encoding of a 32-bit length, as the wire format
prescribes (spec section 6: "Byte 0-3: payload length, unsigned 32-bit,
big-endian"). -/
def be32 (n : Nat) : List Nat :=
  [n / 16777216 % 256, n / 65536 % 256, n / 256 % 256, n % 256]

/-- Loop of `recv_uint32_be` (receiver_win32_fixed.cpp lines 165-183).
`got` is the accumulated header (`buf`, `got.length < 4` while looping).
Note two source facts this embedding preserves: `start` is armed once at
entry (line 163) and never reset on a successful read, and a zero-byte read
(`r == 0`) takes the same retry-until-deadline branch as
`WSAEWOULDBLOCK`/`WSAETIMEDOUT` (line 170). -/
def recvU32Go (timeoutMs start : Nat) : List NetEv → List Nat → List Nat →
    Except RecvErr (Nat × List Nat × List NetEv)
  | evs, got, stream =>
    if 4 ≤ got.length then .ok (decodeBE got, stream, evs)
    else
      match evs with
      | [] => .error .starved
      | .recvRet t avail :: rest =>
        let r := min avail (4 - got.length)
        if r = 0 then
          if timeoutMs < dwElapsed t start then .error .protoTimeout
          else recvU32Go timeoutMs start rest got stream
        else recvU32Go timeoutMs start rest (got ++ stream.take r) (stream.drop r)
      | .wouldBlock t :: rest =>
        if timeoutMs < dwElapsed t start then .error .protoTimeout
        else recvU32Go timeoutMs start rest got stream
      | .recvErr _ code :: _ => .error (.recvError code)

/-- `recv_uint32_be` (receiver_win32_fixed.cpp lines 160-191): read a 4-byte
big-endian unsigned integer; on success returns its value, the undelivered
rest of the stream and the unconsumed schedule. -/
def recv_uint32_be (stream : List Nat) (evs : List NetEv) (timeout_seconds startTick : Nat) :
    Except RecvErr (Nat × List Nat × List NetEv) :=
  recvU32Go (timeout_seconds * 1000) startTick evs [] stream

/-- `SOCKET_TIMEOUT_SECONDS` (receiver_win32_fixed.cpp line 65). -/
def SOCKET_TIMEOUT_SECONDS : Nat := 10

example : decodeBE (be32 5) = 5 := by decide
example : recv_uint32_be [0, 0, 0, 5, 104, 105] [.recvRet 0 2, .recvRet 0 9] 10 0
    = .ok (5, [104, 105], []) := rfl
example : recv_all [104, 105] [.recvRet 0 1, .wouldBlock 50, .recvRet 60 5] 2 10 0
    = .ok ([104, 105], [], []) := rfl

/-!
## Durable writer

The on-disk state relevant to the program is the content at the configured
output path and at its `.tmp` sibling; `write_file_atomic` only ever touches
these two names.  Fault injection mirrors the three operations of the source
that can fail: opening the temporary `ofstream`, writing/flushing it, and
`MoveFileExA`.
-/

/-- Contents at the output path and its `.tmp` sibling (`none` = the file
does not exist). -/
structure FS where
  final : Option (List Nat)
  tmp : Option (List Nat)
deriving Repr, DecidableEq

/-- Fault injection for one `write_file_atomic` call: does the `ofstream`
open succeed; how many bytes reach the temporary file (`none` = all of
them, `some k` = the write/flush fails after `k` bytes); does `MoveFileExA`
succeed. -/
structure WriteEnv where
  openOk : Bool
  writeBudget : Option Nat
  replaceOk : Bool
deriving Repr, DecidableEq

/-- `write_file_atomic` (receiver_win32_fixed.cpp lines 195-215).  The
source checks the open (line 198) and the replace (line 207, deleting the
temporary on failure, line 211), but never inspects the stream state after
`ofs.write`/`ofs.close` (lines 203-204), so a failed write still falls
through to `MoveFileExA` with whatever bytes reached the temporary file. -/
def write_file_atomic (path : String) (data : List Nat) (env : WriteEnv) (fs : FS) :
    Bool × FS :=
  if !env.openOk then (false, fs)
  else
    let written := match env.writeBudget with
      | none => data
      | some k => data.take k
    if env.replaceOk then (true, { final := some written, tmp := none })
    else (false, { final := fs.final, tmp := none })

/-!
## Client handler
-/

/-- `MAX_REASONABLE_PAYLOAD` (receiver_win32_fixed.cpp line 239): 50 MB. -/
def MAX_REASONABLE_PAYLOAD : Nat := 50 * 1024 * 1024

/-- Everything observable about one `handle_single_client` call: its return
value, the `nbytes` argument `recv_all` was invoked with (`none` when the
payload read was never attempted), whether the ACK `send` was attempted,
whether `g_file_received` was stored true, the value written to
`g_last_received_path` (`none` when it was not written), the resulting disk
state, and the log lines of the call. -/
structure ClientEffects where
  result : Bool
  requestedPayload : Option Nat
  ackAttempted : Bool
  fileReceivedSet : Bool
  publishedPath : Option String
  fs : FS
  logs : List String
deriving Repr, DecidableEq

/-- `handle_single_client` (receiver_win32_fixed.cpp lines 221-277).
Parameters: the socket model (`stream`, `evs`), the entry ticks of the two
receive loops (`t1`, `t2`), the runtime option `g_send_ack` (`sendAck`),
whether the ACK `send` would report 1 byte sent (`ackOk`), the write fault
injection, the starting disk state and `out_path`.  The source's order is
preserved: length read (228), validity check (240), payload read (247),
atomic save (253), optional ACK (259-264), then publication of the shared
path and flag (267-272). -/
def handle_single_client (stream : List Nat) (evs : List NetEv) (t1 t2 : Nat)
    (sendAck ackOk : Bool) (wenv : WriteEnv) (fs : FS) (out_path : String) :
    ClientEffects :=
  match recv_uint32_be stream evs SOCKET_TIMEOUT_SECONDS t1 with
  | .error _ =>
    { result := false, requestedPayload := none, ackAttempted := false,
      fileReceivedSet := false, publishedPath := none, fs := fs,
      logs := ["Failed to read payload length"] }
  | .ok (payload_len, stream1, evs1) =>
    if payload_len = 0 ∨ MAX_REASONABLE_PAYLOAD < payload_len then
      { result := false, requestedPayload := none, ackAttempted := false,
        fileReceivedSet := false, publishedPath := none, fs := fs,
        logs := ["Invalid or too large payload length"] }
    else
      match recv_all stream1 evs1 payload_len SOCKET_TIMEOUT_SECONDS t2 with
      | .error _ =>
        { result := false, requestedPayload := some payload_len, ackAttempted := false,
          fileReceivedSet := false, publishedPath := none, fs := fs,
          logs := ["Failed to receive full payload"] }
      | .ok (payload, _, _) =>
        match write_file_atomic out_path payload wenv fs with
        | (false, fs1) =>
          { result := false, requestedPayload := some payload_len, ackAttempted := false,
            fileReceivedSet := false, publishedPath := none, fs := fs1,
            logs := ["Failed to save received payload to disk"] }
        | (true, fs1) =>
          { result := true, requestedPayload := some payload_len,
            ackAttempted := sendAck, fileReceivedSet := true,
            publishedPath := some out_path, fs := fs1,
            logs := (if sendAck then
                       [if ackOk then "ACK sent to client"
                        else "Failed to send ACK (non-critical)"]
                     else []) ++ ["Saved file: " ++ out_path] }

/-!
## Arrival/hotkey coordinator (the main-thread loop)
-/

/-- `hotkey_789_pressed` (receiver_win32_fixed.cpp lines 408-412): each
argument is a `GetAsyncKeyState` result, tested against the 0x8000
"currently down" bit. -/
def hotkey_789_pressed (k7 k8 k9 : Nat) : Bool :=
  (k7 &&& 32768 != 0) && (k8 &&& 32768 != 0) && (k9 &&& 32768 != 0)

/-- Position of the main loop (receiver_win32_fixed.cpp lines 557-587)
between two condition polls: the outer wait-for-arrival loop (557-558), the
inner wait-for-hotkey loop (573-574), the wait-for-release busy loop (578),
or past the outer loop (terminated). -/
inductive CoordState where
  | waitingForArrival
  | waitingForHotkey
  | waitingForRelease
  | terminated
deriving Repr, DecidableEq

/-- What one poll tick of the main loop observes: `g_should_terminate`,
`g_file_received`, and the three `GetAsyncKeyState` results. -/
structure CoordEnv where
  term : Bool
  fileReceived : Bool
  k7 : Nat
  k8 : Nat
  k9 : Nat
deriving Repr, DecidableEq

/-- One poll tick of the main loop (receiver_win32_fixed.cpp lines 557-587);
the returned `Bool` is true when this tick invoked
`type_file_into_active_window`.  Faithful points: `waitingForArrival` checks
the terminate flag (557) then consumes the arrival flag (558, 563);
`waitingForHotkey` checks the terminate flag (573) then the hotkey (574) and
types on observing it pressed (576); `waitingForRelease` (578) polls only
the hotkey — the source's release loop checks neither `g_should_terminate`
nor any bound — and returns to the outer loop when released. -/
def coordStep (s : CoordState) (e : CoordEnv) : CoordState × Bool :=
  match s with
  | .terminated => (.terminated, false)
  | .waitingForArrival =>
    if e.term then (.terminated, false)
    else if e.fileReceived then (.waitingForHotkey, false)
    else (.waitingForArrival, false)
  | .waitingForHotkey =>
    if e.term then (.terminated, false)
    else if hotkey_789_pressed e.k7 e.k8 e.k9 then (.waitingForRelease, true)
    else (.waitingForHotkey, false)
  | .waitingForRelease =>
    if hotkey_789_pressed e.k7 e.k8 e.k9 then (.waitingForRelease, false)
    else (.waitingForArrival, false)

/-- Run the main loop over a list of poll-tick observations; returns the
final position and how many times typing was invoked. -/
def coordRun (s : CoordState) : List CoordEnv → CoordState × Nat
  | [] => (s, 0)
  | e :: rest =>
    let step := coordStep s e
    let tail := coordRun step.1 rest
    (tail.1, (if step.2 then 1 else 0) + tail.2)

/-!
## Server thread loop and the shared globals
-/

/-- The inputs consumed by one handled connection inside one server loop
iteration. -/
structure ClientInput where
  stream : List Nat
  evs : List NetEv
  t1 : Nat
  t2 : Nat
  ackOk : Bool
  wenv : WriteEnv
deriving Repr, DecidableEq

/-- One iteration of the server loop (receiver_win32_fixed.cpp lines
301-382): the `g_should_terminate` value it observes at the loop boundary
(301), and the client it accepts and handles, if any — `none` covers a
`socket`/`bind`/`listen` failure, a `select` timeout or error, and an
`accept` failure, all of which reach the next iteration without touching the
shared state. -/
structure ServerIter where
  term : Bool
  client : Option ClientInput
deriving Repr, DecidableEq

/-- The shared globals the two threads communicate through
(receiver_win32_fixed.cpp lines 70-73) plus the modelled disk state. -/
structure GlobalState where
  lastReceivedPath : String
  fileReceived : Bool
  fs : FS
deriving Repr, DecidableEq

/-- Effect of `handle_single_client` (called at receiver_win32_fixed.cpp
line 376 with the server's `out_path`) on the shared globals. -/
def applyClient (out_path : String) (sendAck : Bool) (gs : GlobalState)
    (ci : ClientInput) : GlobalState :=
  let eff := handle_single_client ci.stream ci.evs ci.t1 ci.t2 sendAck ci.ackOk
    ci.wenv gs.fs out_path
  { lastReceivedPath := match eff.publishedPath with
      | some p => p
      | none => gs.lastReceivedPath,
    fileReceived := gs.fileReceived || eff.fileReceivedSet,
    fs := eff.fs }

/-- The server loop (receiver_win32_fixed.cpp lines 301-382) over a list of
iteration inputs: stops at the first iteration whose boundary check observes
`g_should_terminate`, otherwise handles the iteration's client (if one was
accepted) and continues.  Returns the final globals and the number of
iterations whose body ran. -/
def serverLoopRun (out_path : String) (sendAck : Bool) :
    List ServerIter → GlobalState → GlobalState × Nat
  | [], gs => (gs, 0)
  | it :: rest, gs =>
    if it.term then (gs, 0)
    else
      let gs1 := match it.client with
        | none => gs
        | some ci => applyClient out_path sendAck gs ci
      let tail := serverLoopRun out_path sendAck rest gs1
      (tail.1, tail.2 + 1)

/-- Startup of the globals in `main` (receiver_win32_fixed.cpp lines
534-537): `g_last_received_path` starts as the configured output file, the
arrival flag false; the disk starts in any state `fs0`. -/
def mainInitGlobals (outFile : String) (fs0 : FS) : GlobalState :=
  { lastReceivedPath := outFile, fileReceived := false, fs := fs0 }

example :
    (handle_single_client [0, 0, 0, 2, 65, 66] [.recvRet 0 6, .recvRet 0 6] 0 0 true true
      ⟨true, none, true⟩ ⟨none, none⟩ "out.txt").result = true := rfl

/-!
## Schedule predicates and step lemmas
-/

/-- A schedule consisting only of successful reads: every event is a
`recvRet` with at least one byte available. -/
def dataOnly : List NetEv → Bool
  | [] => true
  | .recvRet _ a :: rest => decide (1 ≤ a) && dataOnly rest
  | _ => false

/-- Every would-block retry in the schedule falls within `budget`
milliseconds of the last successful read before it (`last` at entry); events
other than `recvRet`/`wouldBlock` end both loops with a non-timeout error,
so they close a gap as well. -/
def gapsOK (budget : Nat) : Nat → List NetEv → Bool
  | _, [] => true
  | _, .recvRet t _ :: rest => gapsOK budget t rest
  | last, .wouldBlock t :: rest => decide (dwElapsed t last ≤ budget) && gapsOK budget last rest
  | last, .recvErr _ _ :: rest => gapsOK budget last rest

/-- Every event of the schedule is observed within `budget` milliseconds of
the tick `start`. -/
def allTicksWithin (budget start : Nat) (evs : List NetEv) : Bool :=
  evs.all fun e => decide (dwElapsed (evTick e) start ≤ budget)

theorem recvAllGo_done {nbytes tm : Nat} {evs : List NetEv} {out : List Nat} {st : Nat}
    {stream : List Nat} (h : nbytes ≤ out.length) :
    recvAllGo nbytes tm evs out st stream = .ok (out, stream, evs) := by
  unfold recvAllGo
  rw [if_pos h]

theorem recvAllGo_nil {nbytes tm : Nat} {out : List Nat} {st : Nat} {stream : List Nat}
    (h : out.length < nbytes) :
    recvAllGo nbytes tm [] out st stream = .error .starved := by
  unfold recvAllGo
  rw [if_neg (by omega)]

theorem recvAllGo_recvRet {nbytes tm : Nat} {t avail : Nat} {rest : List NetEv}
    {out : List Nat} {st : Nat} {stream : List Nat} (h : out.length < nbytes) :
    recvAllGo nbytes tm (.recvRet t avail :: rest) out st stream =
      (if min avail (min 4096 (nbytes - out.length)) = 0 then .error .connClosed
       else recvAllGo nbytes tm rest
         (out ++ stream.take (min avail (min 4096 (nbytes - out.length)))) t
         (stream.drop (min avail (min 4096 (nbytes - out.length))))) := by
  conv_lhs => unfold recvAllGo
  rw [if_neg (by omega)]

theorem recvAllGo_wouldBlock {nbytes tm : Nat} {t : Nat} {rest : List NetEv}
    {out : List Nat} {st : Nat} {stream : List Nat} (h : out.length < nbytes) :
    recvAllGo nbytes tm (.wouldBlock t :: rest) out st stream =
      (if tm < dwElapsed t st then .error .protoTimeout
       else recvAllGo nbytes tm rest out st stream) := by
  conv_lhs => unfold recvAllGo
  rw [if_neg (by omega)]

theorem recvAllGo_recvErr {nbytes tm : Nat} {t code : Nat} {rest : List NetEv}
    {out : List Nat} {st : Nat} {stream : List Nat} (h : out.length < nbytes) :
    recvAllGo nbytes tm (.recvErr t code :: rest) out st stream =
      .error (.recvError code) := by
  conv_lhs => unfold recvAllGo
  rw [if_neg (by omega)]

theorem recvU32Go_done {tm st : Nat} {evs : List NetEv} {got : List Nat} {stream : List Nat}
    (h : 4 ≤ got.length) :
    recvU32Go tm st evs got stream = .ok (decodeBE got, stream, evs) := by
  unfold recvU32Go
  rw [if_pos h]

theorem recvU32Go_nil {tm st : Nat} {got : List Nat} {stream : List Nat}
    (h : got.length < 4) :
    recvU32Go tm st [] got stream = .error .starved := by
  unfold recvU32Go
  rw [if_neg (by omega)]

theorem recvU32Go_recvRet {tm st : Nat} {t avail : Nat} {rest : List NetEv}
    {got : List Nat} {stream : List Nat} (h : got.length < 4) :
    recvU32Go tm st (.recvRet t avail :: rest) got stream =
      (if min avail (4 - got.length) = 0 then
         (if tm < dwElapsed t st then .error .protoTimeout
          else recvU32Go tm st rest got stream)
       else recvU32Go tm st rest (got ++ stream.take (min avail (4 - got.length)))
         (stream.drop (min avail (4 - got.length)))) := by
  conv_lhs => unfold recvU32Go
  rw [if_neg (by omega)]

theorem recvU32Go_wouldBlock {tm st : Nat} {t : Nat} {rest : List NetEv}
    {got : List Nat} {stream : List Nat} (h : got.length < 4) :
    recvU32Go tm st (.wouldBlock t :: rest) got stream =
      (if tm < dwElapsed t st then .error .protoTimeout
       else recvU32Go tm st rest got stream) := by
  conv_lhs => unfold recvU32Go
  rw [if_neg (by omega)]

theorem recvU32Go_recvErr {tm st : Nat} {t code : Nat} {rest : List NetEv}
    {got : List Nat} {stream : List Nat} (h : got.length < 4) :
    recvU32Go tm st (.recvErr t code :: rest) got stream = .error (.recvError code) := by
  conv_lhs => unfold recvU32Go
  rw [if_neg (by omega)]

/-- The big-endian decode of `recv_uint32_be` inverts the wire encoding for
every value a 4-byte field can hold. -/
theorem decodeBE_be32 {n : Nat} (h : n < 4294967296) : decodeBE (be32 n) = n := by
  simp only [decodeBE, be32]
  omega

/-- On a schedule of successful reads that span the 4 header bytes, the
header loop assembles exactly the first `4 - got.length` bytes of the stream
— whatever the chunk sizes — and leaves the rest of the stream and at least
`evs.length - (4 - got.length)` schedule entries for the payload loop. -/
theorem recvU32Go_dataOnly (tm st : Nat) (evs : List NetEv) :
    ∀ (got stream : List Nat),
      dataOnly evs = true → got.length < 4 → 4 - got.length ≤ stream.length →
      4 - got.length ≤ evs.length →
      ∃ evs', recvU32Go tm st evs got stream
          = .ok (decodeBE (got ++ stream.take (4 - got.length)),
                 stream.drop (4 - got.length), evs')
        ∧ dataOnly evs' = true ∧ evs.length - (4 - got.length) ≤ evs'.length := by
  induction evs with
  | nil =>
    intro got stream hd hlt hs he
    simp only [List.length_nil] at he
    omega
  | cons ev rest ih =>
    intro got stream hd hlt hs he
    cases ev with
    | wouldBlock t => simp [dataOnly] at hd
    | recvErr t c => simp [dataOnly] at hd
    | recvRet t avail =>
      simp only [dataOnly, Bool.and_eq_true, decide_eq_true_eq] at hd
      obtain ⟨ha, hrest⟩ := hd
      have hr0 : min avail (4 - got.length) ≠ 0 := by omega
      rw [recvU32Go_recvRet hlt, if_neg hr0]
      set r := min avail (4 - got.length) with hrdef
      have hr1 : 1 ≤ r := by omega
      have hrle : r ≤ 4 - got.length := by omega
      have hlen' : (got ++ stream.take r).length = got.length + r := by
        simp [List.length_take]
        omega
      simp only [List.length_cons] at he
      by_cases hfin : 4 ≤ got.length + r
      · have hreq : r = 4 - got.length := by omega
        refine ⟨rest, ?_, hrest, by simp only [List.length_cons]; omega⟩
        rw [recvU32Go_done (by omega : 4 ≤ (got ++ stream.take r).length), hreq]
      · have hlt' : (got ++ stream.take r).length < 4 := by omega
        obtain ⟨evs', heq, hd', hlen''⟩ := ih (got ++ stream.take r) (stream.drop r) hrest hlt'
          (by simp only [List.length_drop, hlen']; omega)
          (by rw [hlen']; omega)
        refine ⟨evs', ?_, hd', by simp only [List.length_cons]; rw [hlen'] at hlen''; omega⟩
        rw [heq, hlen']
        have harith : r + (4 - (got.length + r)) = 4 - got.length := by omega
        rw [List.append_assoc, ← List.take_add, List.drop_drop, harith]

/-- On a schedule of successful reads that span the remaining `nbytes -
out.length` payload bytes, the payload loop accumulates exactly those bytes,
whatever the chunk sizes. -/
theorem recvAllGo_dataOnly (nbytes tm : Nat) (evs : List NetEv) :
    ∀ (out stream : List Nat) (st : Nat),
      dataOnly evs = true → nbytes - out.length ≤ stream.length →
      nbytes - out.length ≤ evs.length →
      ∃ evs', recvAllGo nbytes tm evs out st stream
          = .ok (out ++ stream.take (nbytes - out.length),
                 stream.drop (nbytes - out.length), evs')
        ∧ dataOnly evs' = true := by
  induction evs with
  | nil =>
    intro out stream st hd hs he
    have hle : nbytes ≤ out.length := by simp only [List.length_nil] at he; omega
    refine ⟨[], ?_, rfl⟩
    rw [recvAllGo_done hle]
    have h0 : nbytes - out.length = 0 := by omega
    simp [h0]
  | cons ev rest ih =>
    intro out stream st hd hs he
    by_cases hdone : nbytes ≤ out.length
    · refine ⟨ev :: rest, ?_, hd⟩
      rw [recvAllGo_done hdone]
      have h0 : nbytes - out.length = 0 := by omega
      simp [h0]
    · have hlt : out.length < nbytes := by omega
      cases ev with
      | wouldBlock t => simp [dataOnly] at hd
      | recvErr t c => simp [dataOnly] at hd
      | recvRet t avail =>
        simp only [dataOnly, Bool.and_eq_true, decide_eq_true_eq] at hd
        obtain ⟨ha, hrest⟩ := hd
        have hr0 : min avail (min 4096 (nbytes - out.length)) ≠ 0 := by omega
        rw [recvAllGo_recvRet hlt, if_neg hr0]
        set r := min avail (min 4096 (nbytes - out.length)) with hrdef
        have hr1 : 1 ≤ r := by omega
        have hrle : r ≤ nbytes - out.length := by omega
        have hlen' : (out ++ stream.take r).length = out.length + r := by
          simp [List.length_take]
          omega
        simp only [List.length_cons] at he
        obtain ⟨evs', heq, hd'⟩ := ih (out ++ stream.take r) (stream.drop r) t hrest
          (by simp only [List.length_drop, hlen']; omega)
          (by rw [hlen']; omega)
        refine ⟨evs', ?_, hd'⟩
        rw [heq, hlen']
        have harith : r + (nbytes - (out.length + r)) = nbytes - out.length := by omega
        rw [List.append_assoc, ← List.take_add, List.drop_drop, harith]

/-- Whenever the payload loop succeeds, the returned buffer holds exactly
the `nbytes` requested. -/
theorem recvAllGo_length (nbytes tm : Nat) (evs : List NetEv) :
    ∀ (out stream : List Nat) (st : Nat) (res s' : List Nat) (e' : List NetEv),
      out.length ≤ nbytes →
      recvAllGo nbytes tm evs out st stream = .ok (res, s', e') → res.length = nbytes := by
  induction evs with
  | nil =>
    intro out stream st res s' e' hle h
    by_cases hdone : nbytes ≤ out.length
    · rw [recvAllGo_done hdone] at h
      simp only [Except.ok.injEq, Prod.mk.injEq] at h
      obtain ⟨h1, -, -⟩ := h
      subst h1
      omega
    · rw [recvAllGo_nil (by omega)] at h
      simp at h
  | cons ev rest ih =>
    intro out stream st res s' e' hle h
    by_cases hdone : nbytes ≤ out.length
    · rw [recvAllGo_done hdone] at h
      simp only [Except.ok.injEq, Prod.mk.injEq] at h
      obtain ⟨h1, -, -⟩ := h
      subst h1
      omega
    · have hlt : out.length < nbytes := by omega
      cases ev with
      | recvRet t avail =>
        rw [recvAllGo_recvRet hlt] at h
        by_cases hr : min avail (min 4096 (nbytes - out.length)) = 0
        · rw [if_pos hr] at h
          simp at h
        · rw [if_neg hr] at h
          exact ih _ _ _ _ _ _ (by simp only [List.length_append, List.length_take]; omega) h
      | wouldBlock t =>
        rw [recvAllGo_wouldBlock hlt] at h
        by_cases ht : tm < dwElapsed t st
        · rw [if_pos ht] at h
          simp at h
        · rw [if_neg ht] at h
          exact ih _ _ _ _ _ _ hle h
      | recvErr t c =>
        rw [recvAllGo_recvErr hlt] at h
        simp at h

/-- The payload loop never reports a timeout on a schedule whose every
would-block retry falls within the budget of the last successful read: each
successful read resets the deadline anchor (line 152 of the source). -/
theorem recvAllGo_no_timeout (nbytes tm : Nat) (evs : List NetEv) :
    ∀ (out stream : List Nat) (st : Nat), gapsOK tm st evs = true →
      recvAllGo nbytes tm evs out st stream ≠ .error .protoTimeout := by
  induction evs with
  | nil =>
    intro out stream st _
    by_cases hdone : nbytes ≤ out.length
    · rw [recvAllGo_done hdone]; simp
    · rw [recvAllGo_nil (by omega)]; simp
  | cons ev rest ih =>
    intro out stream st hg
    by_cases hdone : nbytes ≤ out.length
    · rw [recvAllGo_done hdone]; simp
    · have hlt : out.length < nbytes := by omega
      cases ev with
      | recvRet t avail =>
        simp only [gapsOK] at hg
        rw [recvAllGo_recvRet hlt]
        by_cases hr : min avail (min 4096 (nbytes - out.length)) = 0
        · rw [if_pos hr]; simp
        · rw [if_neg hr]; exact ih _ _ _ hg
      | wouldBlock t =>
        simp only [gapsOK, Bool.and_eq_true, decide_eq_true_eq] at hg
        obtain ⟨hgap, hg'⟩ := hg
        rw [recvAllGo_wouldBlock hlt, if_neg (by omega)]
        exact ih _ _ _ hg'
      | recvErr t c =>
        rw [recvAllGo_recvErr hlt]; simp

/-- The header loop never reports a timeout while every schedule event is
observed within the budget of the tick it was entered at: its deadline is
anchored once, at entry. -/
theorem recvU32Go_no_timeout (tm st : Nat) (evs : List NetEv) :
    ∀ (got stream : List Nat), allTicksWithin tm st evs = true →
      recvU32Go tm st evs got stream ≠ .error .protoTimeout := by
  induction evs with
  | nil =>
    intro got stream _
    by_cases hdone : 4 ≤ got.length
    · rw [recvU32Go_done hdone]; simp
    · rw [recvU32Go_nil (by omega)]; simp
  | cons ev rest ih =>
    intro got stream hall
    simp only [allTicksWithin, List.all_cons, Bool.and_eq_true, decide_eq_true_eq] at hall
    obtain ⟨hev, hrest⟩ := hall
    have hrest' : allTicksWithin tm st rest = true := hrest
    by_cases hdone : 4 ≤ got.length
    · rw [recvU32Go_done hdone]; simp
    · have hlt : got.length < 4 := by omega
      cases ev with
      | recvRet t avail =>
        simp only [evTick] at hev
        rw [recvU32Go_recvRet hlt]
        by_cases hr : min avail (4 - got.length) = 0
        · rw [if_pos hr, if_neg (by omega)]
          exact ih _ _ hrest'
        · rw [if_neg hr]; exact ih _ _ hrest'
      | wouldBlock t =>
        simp only [evTick] at hev
        rw [recvU32Go_wouldBlock hlt, if_neg (by omega)]
        exact ih _ _ hrest'
      | recvErr t c =>
        rw [recvU32Go_recvErr hlt]; simp

/-- The header loop has no exit through `connClosed`: a zero-byte read takes
its retry branch (line 170 of the source), never a distinct
peer-closed return. -/
theorem recvU32Go_ne_connClosed (tm st : Nat) (evs : List NetEv) :
    ∀ (got stream : List Nat), recvU32Go tm st evs got stream ≠ .error .connClosed := by
  induction evs with
  | nil =>
    intro got stream
    by_cases hdone : 4 ≤ got.length
    · rw [recvU32Go_done hdone]; simp
    · rw [recvU32Go_nil (by omega)]; simp
  | cons ev rest ih =>
    intro got stream
    by_cases hdone : 4 ≤ got.length
    · rw [recvU32Go_done hdone]; simp
    · have hlt : got.length < 4 := by omega
      cases ev with
      | recvRet t avail =>
        rw [recvU32Go_recvRet hlt]
        by_cases hr : min avail (4 - got.length) = 0
        · rw [if_pos hr]
          by_cases ht : tm < dwElapsed t st
          · rw [if_pos ht]; simp
          · rw [if_neg ht]; exact ih _ _
        · rw [if_neg hr]; exact ih _ _
      | wouldBlock t =>
        rw [recvU32Go_wouldBlock hlt]
        by_cases ht : tm < dwElapsed t st
        · rw [if_pos ht]; simp
        · rw [if_neg ht]; exact ih _ _
      | recvErr t c =>
        rw [recvU32Go_recvErr hlt]; simp
example :
    handle_single_client [0, 0, 0, 0] [.recvRet 0 4] 0 0 true true
      ⟨true, none, true⟩ ⟨some [9], none⟩ "out.txt"
    = { result := false, requestedPayload := none, ackAttempted := false,
        fileReceivedSet := false, publishedPath := none, fs := ⟨some [9], none⟩,
        logs := ["Invalid or too large payload length"] } := rfl

/-!
## Coordinator and server helper lemmas
-/

/-- Once past the outer loop, nothing runs any more. -/
theorem coordRun_terminated (l : List CoordEnv) :
    coordRun .terminated l = (.terminated, 0) := by
  induction l with
  | nil => rfl
  | cons e rest ih => simp [coordRun, coordStep, ih]

/-- The release busy-wait keeps polling, and never types, while the hotkey
stays held — whatever every other input (the terminate flag included) does. -/
theorem coordRun_release_held (l : List CoordEnv)
    (h : ∀ e ∈ l, hotkey_789_pressed e.k7 e.k8 e.k9 = true) :
    coordRun .waitingForRelease l = (.waitingForRelease, 0) := by
  induction l with
  | nil => rfl
  | cons e rest ih =>
    have he := h e (by simp)
    have ihr := ih fun e' he' => h e' (by simp [he'])
    simp [coordRun, coordStep, he, ihr]

/-- With no arrival signalled at any tick, the wait-for-arrival loop never
reaches the typing step. -/
theorem coordRun_no_arrival (l : List CoordEnv)
    (h : ∀ e ∈ l, e.fileReceived = false) :
    (coordRun .waitingForArrival l).2 = 0 := by
  induction l with
  | nil => rfl
  | cons e rest ih =>
    have he := h e (by simp)
    have ihr := ih fun e' he' => h e' (by simp [he'])
    by_cases ht : e.term
    · simp [coordRun, coordStep, ht, coordRun_terminated]
    · simp [coordRun, coordStep, ht, he, ihr]

/-- `handle_single_client` writes `g_last_received_path` only with its own
`out_path` argument, or not at all. -/
theorem handle_single_client_path (stream : List Nat) (evs : List NetEv) (t1 t2 : Nat)
    (sendAck ackOk : Bool) (wenv : WriteEnv) (fs : FS) (out_path : String) :
    (handle_single_client stream evs t1 t2 sendAck ackOk wenv fs out_path).publishedPath = none ∨
    (handle_single_client stream evs t1 t2 sendAck ackOk wenv fs
      out_path).publishedPath = some out_path := by
  unfold handle_single_client
  cases h1 : recv_uint32_be stream evs SOCKET_TIMEOUT_SECONDS t1 with
  | error e => simp
  | ok v =>
    obtain ⟨len, s1, e1⟩ := v
    by_cases hv : len = 0 ∨ MAX_REASONABLE_PAYLOAD < len
    · simp [hv]
    · cases h2 : recv_all s1 e1 len SOCKET_TIMEOUT_SECONDS t2 with
      | error e => simp [hv, h2]
      | ok w =>
        obtain ⟨payload, s2, e2⟩ := w
        rcases h3 : write_file_atomic out_path payload wenv fs with ⟨okSave, fs1⟩
        cases okSave <;> simp [hv, h2, h3]

/-- The server loop preserves `g_last_received_path = out_path` across every
iteration. -/
theorem serverLoopRun_path (out_path : String) (sendAck : Bool) (iters : List ServerIter) :
    ∀ gs : GlobalState, gs.lastReceivedPath = out_path →
      (serverLoopRun out_path sendAck iters gs).1.lastReceivedPath = out_path := by
  induction iters with
  | nil => intro gs h; simpa [serverLoopRun]
  | cons it rest ih =>
    intro gs h
    by_cases ht : it.term
    · simp [serverLoopRun, ht, h]
    · cases hc : it.client with
      | none =>
        simp only [serverLoopRun, ht, if_false, hc]
        exact ih gs h
      | some ci =>
        have hstep : (applyClient out_path sendAck gs ci).lastReceivedPath = out_path := by
          unfold applyClient
          rcases handle_single_client_path ci.stream ci.evs ci.t1 ci.t2 sendAck ci.ackOk
            ci.wenv gs.fs out_path with hp | hp <;> simp [hp, h]
        simp only [serverLoopRun, ht, if_false, hc]
        exact ih _ hstep

/-!
## The claims
-/

/-- Claim C1: for every valid frame (declared length in range, payload of
exactly that length) the receiver decodes the 4-byte header as a big-endian
unsigned 32-bit integer and reconstructs the payload bytes exactly as sent,
for every partition of the wire bytes into successful partial reads — the
result does not depend on the chunking, only on the byte sequence. -/
theorem payload_roundtrip_any_chunking (len : Nat) (payload : List Nat) (evs : List NetEv)
    (T t0 : Nat)
    (hlen : payload.length = len) (hpos : 1 ≤ len) (hmax : len ≤ 52428800)
    (hdata : dataOnly evs = true) (henough : 4 + len ≤ evs.length) :
    ∃ s1 e1 s2 e2,
      recv_uint32_be (be32 len ++ payload) evs T t0 = .ok (len, s1, e1) ∧
      recv_all s1 e1 len T t0 = .ok (payload, s2, e2) := by
  have hbe : (be32 len).length = 4 := rfl
  obtain ⟨e1, hU, hD1, hL1⟩ := recvU32Go_dataOnly (T * 1000) t0 evs [] (be32 len ++ payload)
    hdata (by simp)
    (by simp only [List.length_nil, List.length_append, hbe, hlen]; omega)
    (by simp only [List.length_nil]; omega)
  simp only [List.length_nil, Nat.sub_zero, List.nil_append] at hU
  rw [show (4 : Nat) = (be32 len).length from hbe.symm, List.take_left, List.drop_left] at hU
  rw [decodeBE_be32 (by omega)] at hU
  obtain ⟨e2, hA, -⟩ := recvAllGo_dataOnly len (T * 1000) e1 [] payload t0 hD1
    (by simp only [List.length_nil, Nat.sub_zero, hlen]; omega)
    (by simp only [List.length_nil, Nat.sub_zero]; omega)
  simp only [List.length_nil, Nat.sub_zero, List.nil_append] at hA
  have htake : payload.take len = payload := by rw [← hlen, List.take_length]
  have hdrop : payload.drop len = [] := by rw [← hlen, List.drop_length]
  rw [htake, hdrop] at hA
  exact ⟨payload, e1, [], e2, hU, hA⟩

/-- Witness for C1 at the spec's end-to-end example frame: length 5,
payload "hello", delivered one byte per read. -/
theorem payload_roundtrip_any_chunking_witness :
    ∃ s1 e1 s2 e2,
      recv_uint32_be (be32 5 ++ [104, 101, 108, 108, 111])
        (List.replicate 9 (NetEv.recvRet 0 1)) 10 0 = .ok (5, s1, e1) ∧
      recv_all s1 e1 5 10 0 = .ok ([104, 101, 108, 108, 111], s2, e2) :=
  payload_roundtrip_any_chunking 5 [104, 101, 108, 108, 111]
    (List.replicate 9 (NetEv.recvRet 0 1)) 10 0 rfl (by decide) (by decide)
    (by decide) (by decide)

/-- Claim C2 (code bug in the source): `write_file_atomic` never inspects
the stream state after `ofs.write`/`ofs.close` (lines 203-204), so a
temporary-file write that fails after 1 of 3 bytes — with the replace then
succeeding — makes the call return success and replaces the final path with
the truncated content, where the claim requires a failure return, no
temporary artifact, and an unchanged final file. -/
theorem write_file_atomic_unchecked_write_failure :
    write_file_atomic "out.txt" [1, 2, 3] ⟨true, some 1, true⟩ ⟨some [9, 9], none⟩
      = (true, ⟨some [1], none⟩) := rfl

/-- Claim C3: the decoded length is validated right after the 4 header
bytes are assembled and before any payload read: 0 or more than 50*1024*1024
aborts the connection with no `recv_all` call; every length in
[1, 50*1024*1024] leads to a `recv_all` call requesting exactly that many
bytes, which on success returns exactly that many. -/
theorem length_validated_before_payload_read (stream : List Nat) (evs : List NetEv)
    (t1 t2 : Nat) (sendAck ackOk : Bool) (wenv : WriteEnv) (fs : FS) (out_path : String)
    (L : Nat) (s1 : List Nat) (e1 : List NetEv)
    (hdec : recv_uint32_be stream evs SOCKET_TIMEOUT_SECONDS t1 = .ok (L, s1, e1)) :
    ((L = 0 ∨ 52428800 < L) →
      (handle_single_client stream evs t1 t2 sendAck ackOk wenv fs out_path).result = false ∧
      (handle_single_client stream evs t1 t2 sendAck ackOk wenv fs
        out_path).requestedPayload = none) ∧
    (1 ≤ L ∧ L ≤ 52428800 →
      (handle_single_client stream evs t1 t2 sendAck ackOk wenv fs
        out_path).requestedPayload = some L) ∧
    (∀ payload s2 e2, recv_all s1 e1 L SOCKET_TIMEOUT_SECONDS t2 = .ok (payload, s2, e2) →
      payload.length = L) := by
  refine ⟨?_, ?_, ?_⟩
  · intro hbad
    have hv : L = 0 ∨ MAX_REASONABLE_PAYLOAD < L := by
      simpa [MAX_REASONABLE_PAYLOAD] using hbad
    unfold handle_single_client
    rw [hdec]
    simp [hv]
  · intro hgood
    have hv : ¬(L = 0 ∨ MAX_REASONABLE_PAYLOAD < L) := by
      simp only [MAX_REASONABLE_PAYLOAD]
      omega
    unfold handle_single_client
    rw [hdec]
    cases h2 : recv_all s1 e1 L SOCKET_TIMEOUT_SECONDS t2 with
    | error e => simp [hv, h2]
    | ok w =>
      obtain ⟨payload, s2, e2⟩ := w
      rcases h3 : write_file_atomic out_path payload wenv fs with ⟨okSave, fs1⟩
      cases okSave <;> simp [hv, h2, h3]
  · intro payload s2 e2 h2
    exact recvAllGo_length L (SOCKET_TIMEOUT_SECONDS * 1000) e1 [] s1 t2 payload s2 e2
      (by simp) h2

/-- Witness for C3 at the spec's declared-length-0 scenario: the header
decodes to 0, the connection is aborted and no payload read is attempted. -/
theorem length_validated_before_payload_read_witness :
    ((0 = 0 ∨ 52428800 < 0) →
      (handle_single_client [0, 0, 0, 0] [NetEv.recvRet 0 4] 0 0 true true
        ⟨true, none, true⟩ ⟨none, none⟩ "out.txt").result = false ∧
      (handle_single_client [0, 0, 0, 0] [NetEv.recvRet 0 4] 0 0 true true
        ⟨true, none, true⟩ ⟨none, none⟩ "out.txt").requestedPayload = none) ∧
    ((1 ≤ 0 ∧ 0 ≤ 52428800) →
      (handle_single_client [0, 0, 0, 0] [NetEv.recvRet 0 4] 0 0 true true
        ⟨true, none, true⟩ ⟨none, none⟩ "out.txt").requestedPayload = some 0) ∧
    (∀ payload s2 e2, recv_all [] [] 0 SOCKET_TIMEOUT_SECONDS 0 = .ok (payload, s2, e2) →
      payload.length = 0) :=
  length_validated_before_payload_read [0, 0, 0, 0] [NetEv.recvRet 0 4] 0 0 true true
    ⟨true, none, true⟩ ⟨none, none⟩ "out.txt" 0 [] [] rfl

/-- Counterexample to C4 as stated: a header-read schedule whose every
inter-read gap (9 s) is below the 10 s budget still fails with a timeout,
because `recv_uint32_be` never resets its deadline anchor after a
successful partial read. -/
theorem recv_uint32_be_trickle_timeout_cex :
    gapsOK 10000 0
      [NetEv.recvRet 0 1, NetEv.wouldBlock 9000, NetEv.recvRet 9000 1,
       NetEv.wouldBlock 18000] = true ∧
    recv_uint32_be [0, 0, 0, 5]
      [NetEv.recvRet 0 1, NetEv.wouldBlock 9000, NetEv.recvRet 9000 1,
       NetEv.wouldBlock 18000] 10 0 = .error .protoTimeout := by
  exact ⟨by decide, rfl⟩

/-- Claim C4 amended: `recv_all` resets the idle deadline on every
successful partial read, so a payload transfer whose every would-block retry
falls within the budget of the last successful read never fails with a
timeout; `recv_uint32_be` arms its deadline once at entry and never resets
it, so the header read is timeout-free only when every read and retry is
observed within one budget of entry — prefix inter-read gaps below the
budget do not suffice (see the counterexample). -/
theorem idle_deadline_reset_amended (stream1 stream2 : List Nat)
    (evs1 evs2 : List NetEv) (nbytes T1 T2 t1 t2 : Nat)
    (hg : gapsOK (T1 * 1000) t1 evs1 = true)
    (ha : allTicksWithin (T2 * 1000) t2 evs2 = true) :
    recv_all stream1 evs1 nbytes T1 t1 ≠ .error .protoTimeout ∧
    recv_uint32_be stream2 evs2 T2 t2 ≠ .error .protoTimeout :=
  ⟨recvAllGo_no_timeout nbytes (T1 * 1000) evs1 [] stream1 t1 hg,
   recvU32Go_no_timeout (T2 * 1000) t2 evs2 [] stream2 ha⟩

/-- Witness for the amended C4: a stalled-then-served payload read and a
promptly served header read, both within budget, fail with no timeout. -/
theorem idle_deadline_reset_amended_witness :
    recv_all [7] [NetEv.wouldBlock 500, NetEv.recvRet 600 1] 1 10 0
      ≠ .error .protoTimeout ∧
    recv_uint32_be [0, 0, 0, 1] [NetEv.recvRet 20 4] 10 0 ≠ .error .protoTimeout :=
  idle_deadline_reset_amended [7] [0, 0, 0, 1]
    [NetEv.wouldBlock 500, NetEv.recvRet 600 1] [NetEv.recvRet 20 4] 1 10 10 0 0
    (by decide) (by decide)

/-- Counterexample to C5 as stated: `recv_uint32_be` does not fail
immediately on a zero-byte read — it retries past it (consuming a further
schedule event) and, once the budget has expired, fails through the same
timeout path as a would-block stall, not with a distinct connection-closed
outcome. -/
theorem recv_uint32_be_zero_read_retried_cex :
    recv_uint32_be [] [NetEv.recvRet 0 0, NetEv.wouldBlock 20000] 10 0
      = .error .protoTimeout := rfl

/-- Claim C5 amended: in `recv_all` a zero-byte read fails the transfer
immediately with the connection-closed outcome; in `recv_uint32_be` a
zero-byte read is handled exactly like a would-block stall — retried until
the idle budget expires and then failed through the timeout path — and no
input at all makes `recv_uint32_be` return the connection-closed outcome. -/
theorem zero_read_handling_amended (nbytes T T2 t0 t02 t : Nat) (rest : List NetEv)
    (stream stream2 stream3 : List Nat) (evs3 : List NetEv)
    (hpos : 1 ≤ nbytes) :
    recv_all stream (NetEv.recvRet t 0 :: rest) nbytes T t0 = .error .connClosed ∧
    recv_uint32_be stream2 (NetEv.recvRet t 0 :: rest) T2 t02
      = recv_uint32_be stream2 (NetEv.wouldBlock t :: rest) T2 t02 ∧
    recv_uint32_be stream3 evs3 T t0 ≠ .error .connClosed := by
  refine ⟨?_, ?_, recvU32Go_ne_connClosed (T * 1000) t0 evs3 [] stream3⟩
  · show recvAllGo nbytes (T * 1000) (NetEv.recvRet t 0 :: rest) [] t0 stream
      = .error .connClosed
    rw [recvAllGo_recvRet (by simp only [List.length_nil]; omega)]
    simp
  · show recvU32Go (T2 * 1000) t02 (NetEv.recvRet t 0 :: rest) [] stream2
      = recvU32Go (T2 * 1000) t02 (NetEv.wouldBlock t :: rest) [] stream2
    rw [recvU32Go_recvRet (by simp), recvU32Go_wouldBlock (by simp)]
    simp

/-- Witness for the amended C5 at a one-byte transfer and an empty header
schedule. -/
theorem zero_read_handling_amended_witness :
    recv_all [5] [NetEv.recvRet 0 0] 1 10 0 = .error .connClosed ∧
    recv_uint32_be [] [NetEv.recvRet 0 0] 10 0
      = recv_uint32_be [] [NetEv.wouldBlock 0] 10 0 ∧
    recv_uint32_be [] [] 10 0 ≠ .error .connClosed :=
  zero_read_handling_amended 1 10 10 0 0 0 [] [5] [] [] [] (by decide)

/-- Splitting a coordinator run at a list boundary. -/
theorem coordRun_append (l1 l2 : List CoordEnv) :
    ∀ s : CoordState, coordRun s (l1 ++ l2)
      = ((coordRun (coordRun s l1).1 l2).1,
         (coordRun s l1).2 + (coordRun (coordRun s l1).1 l2).2) := by
  induction l1 with
  | nil => intro s; simp [coordRun]
  | cons e rest ih =>
    intro s
    have h1 : coordRun s ((e :: rest) ++ l2)
        = ((coordRun (coordStep s e).1 (rest ++ l2)).1,
           (if (coordStep s e).2 then 1 else 0)
             + (coordRun (coordStep s e).1 (rest ++ l2)).2) := rfl
    have h2 : coordRun s (e :: rest)
        = ((coordRun (coordStep s e).1 rest).1,
           (if (coordStep s e).2 then 1 else 0)
             + (coordRun (coordStep s e).1 rest).2) := rfl
    rw [h1, h2, ih (coordStep s e).1]
    rcases coordRun (coordStep s e).1 rest with ⟨s1, k1⟩
    rcases coordRun s1 l2 with ⟨s2, k2⟩
    simp [Nat.add_assoc]

/-- Claim C6: typing fires exactly once per hotkey edge and per consumed
arrival: from the wait-for-hotkey state, a not-pressed tick, any positive
number of consecutive pressed ticks and a released tick produce exactly one
typing invocation and leave the coordinator waiting for the next arrival;
while the keys stay held no further typing happens; and from the
wait-for-arrival state no typing at all happens until a new arrival is
observed. -/
theorem hotkey_edge_types_once (a b c : CoordEnv) (n : Nat)
    (held noArrival : List CoordEnv)
    (haT : a.term = false) (haK : hotkey_789_pressed a.k7 a.k8 a.k9 = false)
    (hbT : b.term = false) (hbK : hotkey_789_pressed b.k7 b.k8 b.k9 = true)
    (hcK : hotkey_789_pressed c.k7 c.k8 c.k9 = false)
    (hheld : ∀ e ∈ held, hotkey_789_pressed e.k7 e.k8 e.k9 = true)
    (hnoArr : ∀ e ∈ noArrival, e.fileReceived = false) :
    coordRun .waitingForHotkey (a :: (List.replicate (n + 1) b ++ [c]))
      = (.waitingForArrival, 1) ∧
    coordRun .waitingForRelease held = (.waitingForRelease, 0) ∧
    (coordRun .waitingForArrival noArrival).2 = 0 := by
  refine ⟨?_, coordRun_release_held held hheld, coordRun_no_arrival noArrival hnoArr⟩
  have hstepA : coordStep .waitingForHotkey a = (.waitingForHotkey, false) := by
    simp [coordStep, haT, haK]
  have hstepB : coordStep .waitingForHotkey b = (.waitingForRelease, true) := by
    simp [coordStep, hbT, hbK]
  have hrep : coordRun .waitingForRelease (List.replicate n b)
      = (.waitingForRelease, 0) := by
    refine coordRun_release_held _ ?_
    intro e he
    rw [List.eq_of_mem_replicate he]
    exact hbK
  have hrel : coordRun .waitingForRelease (List.replicate n b ++ [c])
      = (.waitingForArrival, 0) := by
    rw [coordRun_append, hrep]
    simp [coordRun, coordStep, hcK]
  rw [List.replicate_succ, List.cons_append]
  show coordRun .waitingForHotkey (a :: b :: (List.replicate n b ++ [c])) = _
  simp [coordRun, hstepA, hstepB, hrel]

/-- Witness for C6: one not-pressed tick, two pressed ticks, one released
tick — one typing invocation; a held tail and an arrival-free tail add
nothing. -/
theorem hotkey_edge_types_once_witness :
    coordRun .waitingForHotkey
      ((⟨false, false, 0, 0, 0⟩ : CoordEnv) ::
        (List.replicate 2 (⟨false, false, 32768, 32768, 32768⟩ : CoordEnv) ++
          [(⟨false, false, 0, 0, 0⟩ : CoordEnv)]))
      = (.waitingForArrival, 1) ∧
    coordRun .waitingForRelease [(⟨false, false, 32768, 32768, 32768⟩ : CoordEnv)]
      = (.waitingForRelease, 0) ∧
    (coordRun .waitingForArrival [(⟨true, false, 0, 0, 0⟩ : CoordEnv)]).2 = 0 :=
  hotkey_edge_types_once ⟨false, false, 0, 0, 0⟩ ⟨false, false, 32768, 32768, 32768⟩
    ⟨false, false, 0, 0, 0⟩ 1 [⟨false, false, 32768, 32768, 32768⟩]
    [⟨true, false, 0, 0, 0⟩] rfl (by decide) rfl (by decide) (by decide)
    (by intro e he; simp at he; subst he; decide)
    (by intro e he; simp at he; subst he; rfl)

/-- Claim C7: after a successful save, the ACK outcome is irrelevant to
everything but the log line: whatever the single 0x01 send reports,
`handle_single_client` returns success, keeps the saved file, publishes the
arrival path and sets the arrival flag; the ACK is attempted exactly when
acking is enabled. -/
theorem ack_failure_nonfatal (stream : List Nat) (evs : List NetEv) (t1 t2 : Nat)
    (sendAck ackOk : Bool) (wenv : WriteEnv) (fs fs1 : FS) (out_path : String)
    (L : Nat) (s1 : List Nat) (e1 : List NetEv) (payload s2 : List Nat) (e2 : List NetEv)
    (hdec : recv_uint32_be stream evs SOCKET_TIMEOUT_SECONDS t1 = .ok (L, s1, e1))
    (hval : ¬(L = 0 ∨ MAX_REASONABLE_PAYLOAD < L))
    (hpay : recv_all s1 e1 L SOCKET_TIMEOUT_SECONDS t2 = .ok (payload, s2, e2))
    (hsave : write_file_atomic out_path payload wenv fs = (true, fs1)) :
    (handle_single_client stream evs t1 t2 sendAck ackOk wenv fs out_path).result = true ∧
    (handle_single_client stream evs t1 t2 sendAck ackOk wenv fs out_path).fs = fs1 ∧
    (handle_single_client stream evs t1 t2 sendAck ackOk wenv fs
      out_path).fileReceivedSet = true ∧
    (handle_single_client stream evs t1 t2 sendAck ackOk wenv fs
      out_path).publishedPath = some out_path ∧
    (handle_single_client stream evs t1 t2 sendAck ackOk wenv fs
      out_path).ackAttempted = sendAck := by
  unfold handle_single_client
  rw [hdec]
  simp [hval, hpay, hsave]

/-- Witness for C7: a one-byte frame saved with a failing ACK send still
reports success and publishes the arrival. -/
theorem ack_failure_nonfatal_witness :
    (handle_single_client [0, 0, 0, 1, 65] [NetEv.recvRet 0 5, NetEv.recvRet 0 5] 0 0
      true false ⟨true, none, true⟩ ⟨none, none⟩ "out.txt").result = true ∧
    (handle_single_client [0, 0, 0, 1, 65] [NetEv.recvRet 0 5, NetEv.recvRet 0 5] 0 0
      true false ⟨true, none, true⟩ ⟨none, none⟩ "out.txt").fs
      = ⟨some [65], none⟩ ∧
    (handle_single_client [0, 0, 0, 1, 65] [NetEv.recvRet 0 5, NetEv.recvRet 0 5] 0 0
      true false ⟨true, none, true⟩ ⟨none, none⟩ "out.txt").fileReceivedSet = true ∧
    (handle_single_client [0, 0, 0, 1, 65] [NetEv.recvRet 0 5, NetEv.recvRet 0 5] 0 0
      true false ⟨true, none, true⟩ ⟨none, none⟩ "out.txt").publishedPath
      = some "out.txt" ∧
    (handle_single_client [0, 0, 0, 1, 65] [NetEv.recvRet 0 5, NetEv.recvRet 0 5] 0 0
      true false ⟨true, none, true⟩ ⟨none, none⟩ "out.txt").ackAttempted = true :=
  ack_failure_nonfatal [0, 0, 0, 1, 65] [NetEv.recvRet 0 5, NetEv.recvRet 0 5] 0 0
    true false ⟨true, none, true⟩ ⟨none, none⟩ ⟨some [65], none⟩ "out.txt"
    1 [65] [NetEv.recvRet 0 5] [65] [] [] rfl (by decide) rfl rfl

/-- Counterexample to C8 as stated: the wait-for-release busy loop (line
578 of the source) checks no shutdown flag — with the terminate flag set at
every one of 300 poll ticks and the keys held, the loop is still running
after all 300 ticks instead of terminating. -/
theorem release_loop_ignores_shutdown_cex :
    coordRun .waitingForRelease
      (List.replicate 300 (⟨true, false, 32768, 32768, 32768⟩ : CoordEnv))
      = (.waitingForRelease, 0) :=
  coordRun_release_held _ (by
    intro e he
    rw [List.eq_of_mem_replicate he]
    decide)

/-- Claim C8 amended: the server accept loop, the coordinator's
wait-for-arrival loop and its wait-for-hotkey loop check the shutdown flag
at every iteration boundary and stop at once when it is observed set; the
wait-for-release busy loop checks no flag at all — while the hotkey stays
held it keeps polling without bound however long the flag has been set.
(The receive retry loops never consult the flag either; their further work
is bounded by the idle deadline and the remaining byte count, not by
shutdown.) -/
theorem shutdown_flag_checks_amended (e eh : CoordEnv) (it : ServerIter)
    (rest : List ServerIter) (gs : GlobalState) (out_path : String) (sendAck : Bool)
    (n : Nat)
    (hterm : e.term = true) (hitterm : it.term = true)
    (hheldK : hotkey_789_pressed eh.k7 eh.k8 eh.k9 = true) :
    coordStep .waitingForArrival e = (.terminated, false) ∧
    coordStep .waitingForHotkey e = (.terminated, false) ∧
    serverLoopRun out_path sendAck (it :: rest) gs = (gs, 0) ∧
    coordRun .waitingForRelease (List.replicate n eh) = (.waitingForRelease, 0) := by
  refine ⟨by simp [coordStep, hterm], by simp [coordStep, hterm],
    by simp [serverLoopRun, hitterm], coordRun_release_held _ ?_⟩
  intro e' he'
  rw [List.eq_of_mem_replicate he']
  exact hheldK

/-- Witness for the amended C8: with the flag set, the three flag-checking
loops exit on the spot while the release loop keeps spinning under held
keys. -/
theorem shutdown_flag_checks_amended_witness :
    coordStep .waitingForArrival ⟨true, false, 0, 0, 0⟩ = (.terminated, false) ∧
    coordStep .waitingForHotkey ⟨true, false, 0, 0, 0⟩ = (.terminated, false) ∧
    serverLoopRun "out.txt" true [⟨true, none⟩]
      (mainInitGlobals "out.txt" ⟨none, none⟩)
      = (mainInitGlobals "out.txt" ⟨none, none⟩, 0) ∧
    coordRun .waitingForRelease
      (List.replicate 5 (⟨true, false, 32768, 32768, 40000⟩ : CoordEnv))
      = (.waitingForRelease, 0) :=
  shutdown_flag_checks_amended ⟨true, false, 0, 0, 0⟩ ⟨true, false, 32768, 32768, 40000⟩
    ⟨true, none⟩ [] (mainInitGlobals "out.txt" ⟨none, none⟩) "out.txt" true 5
    rfl rfl (by decide)

/-- Claim C9: every failure exit of `handle_single_client` — header read
failure, invalid length, incomplete payload, failed save — reports failure
having attempted no acknowledgment, set no arrival flag and written no
shared path. -/
theorem failure_no_side_effects (stream : List Nat) (evs : List NetEv) (t1 t2 : Nat)
    (sendAck ackOk : Bool) (wenv : WriteEnv) (fs : FS) (out_path : String)
    (hfail : (handle_single_client stream evs t1 t2 sendAck ackOk wenv fs
      out_path).result = false) :
    (handle_single_client stream evs t1 t2 sendAck ackOk wenv fs
      out_path).ackAttempted = false ∧
    (handle_single_client stream evs t1 t2 sendAck ackOk wenv fs
      out_path).fileReceivedSet = false ∧
    (handle_single_client stream evs t1 t2 sendAck ackOk wenv fs
      out_path).publishedPath = none := by
  unfold handle_single_client at hfail ⊢
  cases h1 : recv_uint32_be stream evs SOCKET_TIMEOUT_SECONDS t1 with
  | error err => simp [h1]
  | ok v =>
    obtain ⟨L, s1, e1⟩ := v
    by_cases hv : L = 0 ∨ MAX_REASONABLE_PAYLOAD < L
    · simp [hv]
    · cases h2 : recv_all s1 e1 L SOCKET_TIMEOUT_SECONDS t2 with
      | error err => simp [hv, h2]
      | ok w =>
        obtain ⟨payload, s2, e2⟩ := w
        rcases h3 : write_file_atomic out_path payload wenv fs with ⟨okSave, fs1⟩
        cases okSave
        · simp [hv, h2, h3]
        · rw [h1] at hfail
          simp [hv, h2, h3] at hfail

/-- Witness for C9 at the declared-length-0 frame: the aborted connection
leaves acknowledgment, arrival flag and shared path untouched. -/
theorem failure_no_side_effects_witness :
    (handle_single_client [0, 0, 0, 0] [NetEv.recvRet 0 4] 0 0 true true
      ⟨true, none, true⟩ ⟨none, none⟩ "out.txt").ackAttempted = false ∧
    (handle_single_client [0, 0, 0, 0] [NetEv.recvRet 0 4] 0 0 true true
      ⟨true, none, true⟩ ⟨none, none⟩ "out.txt").fileReceivedSet = false ∧
    (handle_single_client [0, 0, 0, 0] [NetEv.recvRet 0 4] 0 0 true true
      ⟨true, none, true⟩ ⟨none, none⟩ "out.txt").publishedPath = none :=
  failure_no_side_effects [0, 0, 0, 0] [NetEv.recvRet 0 4] 0 0 true true
    ⟨true, none, true⟩ ⟨none, none⟩ "out.txt" rfl

/-- Claim C10: the shared last-received path always equals the single
configured output file: `main` initializes it to the configured path, the
only other write republishes the server's `out_path` — the same configured
value — after a successful transfer, and the coordinator only reads it; so
along every server-loop run the path never takes another value. -/
theorem last_received_path_invariant (outFile : String) (sendAck : Bool) (fs0 : FS)
    (iters : List ServerIter) :
    (serverLoopRun outFile sendAck iters
      (mainInitGlobals outFile fs0)).1.lastReceivedPath = outFile :=
  serverLoopRun_path outFile sendAck iters _ rfl
